import Mathlib

/-!
Verification of the QuishThis QR-code phishing detector core.

This file shallowly embeds the algorithmic core of the repository in Lean:

* the JS-number arithmetic actually exercised by the similarity code
  (exact rationals plus NaN and the infinities);
* the normalized Levenshtein similarity (`findSimilarity` in
  `utils/urlChecker.js`, identical to the `levenshtein` closure inside
  `checkForTyposquatting`);
* the typosquatting detector `checkForTyposquatting` and the
  `TyposquattingStrategy` of `utils/analysisStrategies.js`;
* the risk aggregation of `utils/urlAnalyzer.js`
  (`calculateRiskScore`, `determineOverallSafety`) and its result cache;
* the `ReportingService` observer list, notification loop and
  `reportURL` state changes.

Theorems about these definitions settle the specification claims.
-/

namespace QuishThis

/-- Model of a JavaScript number as used by the embedded code: an exact
rational value, or one of the non-finite values NaN / +Infinity / -Infinity.
All arithmetic performed by the embedded code stays exact over ℚ. -/
inductive JSNum where
  | nan : JSNum
  | inf : JSNum
  | negInf : JSNum
  | val : ℚ → JSNum
deriving DecidableEq

/-- The canonical image of a natural number in ℚ, written with `mkRat` so
that it evaluates by kernel reduction (the proof `natQ_eq` below shows it
is the usual cast). -/
def natQ (n : ℕ) : ℚ := mkRat n 1

/-- Exact rational subtraction written with `mkRat` so that it evaluates by
kernel reduction; `ratSub_eq` below shows it is ordinary subtraction on ℚ. -/
def ratSub (a b : ℚ) : ℚ := mkRat (a.num * b.den - b.num * a.den) (a.den * b.den)

/-- Exact rational multiplication written with `mkRat`; `ratMul_eq` below
shows it is ordinary multiplication on ℚ. -/
def ratMul (a b : ℚ) : ℚ := mkRat (a.num * b.num) (a.den * b.den)

/-- Exact rational division written with `mkRat`; `ratDiv_eq` below shows
it is ordinary division on ℚ (with the `a / 0 = 0` junk convention, which
the JS model never reaches because it tests the divisor first). -/
def ratDiv (a b : ℚ) : ℚ :=
  if 0 ≤ b.num then mkRat (a.num * b.den) (a.den * b.num.natAbs)
  else mkRat (-(a.num * b.den)) (a.den * b.num.natAbs)

/-- JS division. `0/0` is NaN, `a/0` for `a ≠ 0` is a signed infinity. -/
def jsDiv : JSNum → JSNum → JSNum
  | .val a, .val b =>
      if b = 0 then (if a = 0 then .nan else if 0 < a then .inf else .negInf)
      else .val (ratDiv a b)
  | .nan, _ => .nan
  | _, .nan => .nan
  | .inf, .inf => .nan
  | .inf, .negInf => .nan
  | .negInf, .inf => .nan
  | .negInf, .negInf => .nan
  | .inf, .val _ => .inf
  | .negInf, .val _ => .negInf
  | .val _, .inf => .val 0
  | .val _, .negInf => .val 0

/-- JS subtraction on the model. -/
def jsSub : JSNum → JSNum → JSNum
  | .val a, .val b => .val (ratSub a b)
  | .nan, _ => .nan
  | _, .nan => .nan
  | .inf, .inf => .nan
  | .negInf, .negInf => .nan
  | .inf, _ => .inf
  | .negInf, _ => .negInf
  | .val _, .inf => .negInf
  | .val _, .negInf => .inf

/-- JS multiplication on the model. -/
def jsMul : JSNum → JSNum → JSNum
  | .val a, .val b => .val (ratMul a b)
  | .nan, _ => .nan
  | _, .nan => .nan
  | .inf, .inf => .inf
  | .inf, .negInf => .negInf
  | .negInf, .inf => .negInf
  | .negInf, .negInf => .inf
  | .inf, .val b => if b = 0 then .nan else if 0 < b then .inf else .negInf
  | .val a, .inf => if a = 0 then .nan else if 0 < a then .inf else .negInf
  | .negInf, .val b => if b = 0 then .nan else if 0 < b then .negInf else .inf
  | .val a, .negInf => if a = 0 then .nan else if 0 < a then .negInf else .inf

/-- JS strict `>` comparison; every comparison with NaN is false. -/
def jsGt : JSNum → JSNum → Bool
  | .nan, _ => false
  | _, .nan => false
  | .val a, .val b => decide (b < a)
  | .inf, .inf => false
  | .inf, _ => true
  | _, .inf => false
  | .negInf, _ => false
  | _, .negInf => true

/-- JS strict `<` comparison. -/
def jsLt (a b : JSNum) : Bool := jsGt b a

/-- JS `Math.round`: round half toward positive infinity. -/
def jsRound : JSNum → JSNum
  | .val q => .val (⌊q + 1/2⌋ : ℤ)
  | x => x

/-- Lower-case an ASCII character, as `String.prototype.toLowerCase`
does on the ASCII range used by the embedded domain lists. -/
def jsToLowerChar (c : Char) : Char :=
  if 'A' ≤ c ∧ c ≤ 'Z' then Char.ofNat (c.toNat + 32) else c

/-- `toLowerCase` over a character list. -/
def jsToLower (s : List Char) : List Char := s.map jsToLowerChar

/-- Does `hay` begin with `pat`? (helper for the JS `includes`/`replace`
string operations). -/
def leadsWith : List Char → List Char → Bool
  | [], _ => true
  | _ :: _, [] => false
  | a :: p, b :: l => a = b && leadsWith p l

/-- JS `hay.includes(needle)`. -/
def jsIncludes (needle : List Char) : List Char → Bool
  | [] => leadsWith needle []
  | a :: t => leadsWith needle (a :: t) || jsIncludes needle t

/-- JS `hay.replace(pat, '')` for a plain-string pattern: remove the first
occurrence of `pat`, if any. -/
def replaceFirst (pat : List Char) : List Char → List Char
  | [] => []
  | a :: t =>
      if leadsWith pat (a :: t) then List.drop pat.length (a :: t)
      else a :: replaceFirst pat t

/-- The regex replacement `domain.replace(/\.[^.]+$/, '')` of
`checkForTyposquatting`: strip a final dot-component (a dot followed by at
least one non-dot character at the end of the string). -/
def dropLastDotComponent (s : List Char) : List Char :=
  let rev := s.reverse
  let ext := rev.takeWhile (fun c => c ≠ '.')
  match rev.dropWhile (fun c => c ≠ '.') with
  | '.' :: pre => if ext.isEmpty then s else pre.reverse
  | _ => s

/-- Leet-speak normalization of `checkForTyposquatting`:
`0→o`, `1→l`, `5→s`, `8→b`. -/
def leetNormalize (s : List Char) : List Char :=
  s.map (fun c =>
    if c = '0' then 'o'
    else if c = '1' then 'l'
    else if c = '5' then 's'
    else if c = '8' then 'b'
    else c)

/-- Inner loop of the single-row Levenshtein computation of
`findSimilarity` (`utils/urlChecker.js`, identically the `levenshtein`
closure in `checkForTyposquatting` of the unnamed urlChecker variant).
`c` is the current character of the longer string, `nw` the previous row's
value at the previous column, `rest` the previous row from the current
column on, `cur` the freshly computed value of the current row at the
previous column. -/
def levStep (c : Char) : List Char → ℕ → List ℕ → ℕ → List ℕ
  | [], _, _, _ => []
  | _ :: _, _, [], _ => []
  | sc :: s', nw, rj :: rest, cur =>
      let cj := min (1 + min rj cur) (if c = sc then nw else nw + 1)
      cj :: levStep c s' rj rest cj

/-- Outer loop of the single-row Levenshtein computation: fold the rows over
the characters of the longer string, starting from row `[0, 1, …, n]`.
`i` is the JS loop counter. -/
def levRows (sh : List Char) : List Char → List ℕ → ℕ → List ℕ
  | [], row, _ => row
  | _ :: _, [], _ => []
  | c :: rest, r0 :: rtail, i => levRows sh rest (i :: levStep c sh r0 rtail i) (i + 1)

/-- `findSimilarity(s1, s2)` of `utils/urlChecker.js` (the same code appears
as the `levenshtein` closure inside `checkForTyposquatting` of the unnamed
urlChecker variant): normalized edit-distance similarity with a
short-circuit to 0 when the lengths differ by more than 3, returning
`1 - distance / max(len1, len2)` with JS number semantics. -/
def findSimilarity (s1 s2 : List Char) : JSNum :=
  let longerStr := if s1.length > s2.length then s1 else s2
  let shorterStr := if s1.length > s2.length then s2 else s1
  if longerStr.length - shorterStr.length > 3 then .val 0
  else
    let costs := levRows shorterStr longerStr (List.range (shorterStr.length + 1)) 1
    jsSub (.val 1)
      (jsDiv (.val (natQ (costs.getD shorterStr.length 0)))
        (.val (natQ (max longerStr.length shorterStr.length))))

/-- Distance `|a - b|` on ℕ, used to state the row invariant of the
Levenshtein computation. -/
def ndist (a b : ℕ) : ℕ := (a - b) + (b - a)

/-- The `popularDomains` brand list of `checkForTyposquatting`
(unnamed urlChecker variant, 20 entries, in source order). -/
def popularDomains : List (List Char) :=
  ["google.com".data, "facebook.com".data, "amazon.com".data, "apple.com".data,
   "netflix.com".data, "microsoft.com".data, "gmail.com".data, "yahoo.com".data,
   "instagram.com".data, "twitter.com".data, "paypal.com".data, "linkedin.com".data,
   "ebay.com".data, "youtube.com".data, "reddit.com".data, "spotify.com".data,
   "github.com".data, "dropbox.com".data, "slack.com".data, "zoom.us".data]

/-- The result object of `checkForTyposquatting`. -/
structure TyposquatResult where
  suspicious : Bool
  similarTo : Option (List Char)
  score : JSNum
deriving DecidableEq

/-- The brand loop of `checkForTyposquatting`: for each popular domain, in
order, try the three rules (similarity window, substring containment,
leet-speak normalization); the first rule that fires wins (`break`). -/
def checkTyposquatGo (domain : List Char) : List (List Char) → TyposquatResult
  | [] => ⟨false, none, .val 0⟩
  | pd :: rest =>
      let domainWithoutTld := jsToLower (dropLastDotComponent domain)
      let popularWithoutTld := jsToLower (dropLastDotComponent pd)
      let similarity := findSimilarity domainWithoutTld popularWithoutTld
      if jsGt similarity (.val (mkRat 3 4)) && jsLt similarity (.val 1) then
        ⟨true, some pd, jsRound (jsMul similarity (.val 100))⟩
      else if jsIncludes popularWithoutTld domainWithoutTld ∧ domain ≠ pd then
        ⟨true, some pd, .val 85⟩
      else if leetNormalize domainWithoutTld = popularWithoutTld ∧ domain ≠ pd then
        ⟨true, some pd, .val 90⟩
      else checkTyposquatGo domain rest

/-- `checkForTyposquatting(domain)` of the unnamed urlChecker variant
(part_007 lines 133–212). -/
def checkForTyposquatting (domain : List Char) : TyposquatResult :=
  checkTyposquatGo domain popularDomains

/-- Inner loop of `TyposquattingStrategy.levenshteinDistance`
(`utils/analysisStrategies.js`): compute row `i` of the full DP matrix from
row `i-1`. The previous row is consumed pairwise; `cur` is the value of the
current row at the previous column. -/
def lrowGo (c : Char) : List Char → List ℕ → ℕ → List ℕ
  | [], _, _ => []
  | _ :: _, [], _ => []
  | a :: s1', pjm1 :: rest, cur =>
      let pj := rest.headD 0
      let m := if c = a then pjm1 else min (pjm1 + 1) (min (cur + 1) (pj + 1))
      m :: lrowGo c s1' rest m

/-- Row fold of `TyposquattingStrategy.levenshteinDistance`: one row per
character of `str2`. -/
def levMatrixRows (s1 : List Char) : List Char → List ℕ → ℕ → List ℕ
  | [], row, _ => row
  | c :: s2', row, i => levMatrixRows s1 s2' (i :: lrowGo c s1 row i) (i + 1)

/-- `TyposquattingStrategy.levenshteinDistance(str1, str2)`: classic full
dynamic-programming edit distance. -/
def levenshteinDistance (str1 str2 : List Char) : ℕ :=
  (levMatrixRows str1 str2 (List.range (str1.length + 1)) 1).getD str1.length 0

/-- `TyposquattingStrategy.isSimilar(domain1, domain2)`:
`1 - distance/maxLength` strictly between 0.7 and 1.0. -/
def isSimilar (domain1 domain2 : List Char) : Bool :=
  let distance := levenshteinDistance domain1 domain2
  let maxLength := max domain1.length domain2.length
  let similarity := jsSub (.val 1) (jsDiv (.val (natQ distance)) (.val (natQ maxLength)))
  jsGt similarity (.val (mkRat 7 10)) && jsLt similarity (.val 1)

/-- The `legitimateDomains` list of `TyposquattingStrategy`
(16 entries, in source order). -/
def legitimateDomains : List (List Char) :=
  ["google.com".data, "facebook.com".data, "amazon.com".data, "microsoft.com".data,
   "apple.com".data, "paypal.com".data, "netflix.com".data, "instagram.com".data,
   "twitter.com".data, "linkedin.com".data, "ebay.com".data, "walmart.com".data,
   "bankofamerica.com".data, "chase.com".data, "wellsfargo.com".data, "citibank.com".data]

/-- `TyposquattingStrategy.findSuspectedTarget(domain)`: the first
legitimate domain the candidate is similar to, else null. -/
def findSuspectedTarget (domain : List Char) : Option (List Char) :=
  legitimateDomains.find? (fun legitimate => isSimilar domain legitimate)

/-- Outcome object of `SafeBrowsingStrategy.analyze`. Absent JS fields are
modelled as `none` / `false` / `[]`. -/
structure SBOutcome where
  error : Option String
  isSafe : Option Bool
  risk : String
  message : Option String
  requiresSetup : Bool
  threats : List String
deriving DecidableEq

/-- `SafeBrowsingStrategy.analyze`, with the network interaction abstracted:
`net` is the settled result of the Safe Browsing POST — either a thrown
error message or the (possibly missing) `matches` array. The surrounding
`try`/`catch` of the source is the `match` on `net`: a thrown error becomes
the failed outcome `{error, isSafe: null, risk: 'unknown'}`. -/
def safeBrowsingAnalyze (apiKey : String) (net : Except String (Option (List String))) :
    SBOutcome :=
  if apiKey = "" ∨ apiKey = "YOUR_GOOGLE_SAFE_BROWSING_API_KEY" then
    { error := none, isSafe := none, risk := "unknown",
      message := some "Google Safe Browsing API key not configured",
      requiresSetup := true, threats := [] }
  else
    match net with
    | .error m => { error := some m, isSafe := none, risk := "unknown",
                    message := none, requiresSetup := false, threats := [] }
    | .ok ms =>
        let isSafe : Bool := match ms with | none => true | some l => l.isEmpty
        { error := none, isSafe := some isSafe,
          risk := if isSafe then "low" else "high",
          message := some (if isSafe then "No threats detected by Google Safe Browsing"
                           else "Threats detected by Google Safe Browsing"),
          requiresSetup := false, threats := ms.getD [] }

/-- Outcome object of `TyposquattingStrategy.analyze`. -/
structure TSOutcome where
  error : Option String
  isTyposquat : Option Bool
  suspectedTarget : Option String
  domain : Option String
  risk : String
  detectionRatio : Option String
  message : Option String
deriving DecidableEq

/-- `TyposquattingStrategy.analyze`, with the environment abstracted:
`hostParse` is the result of `new URL(url).hostname` (an exception for a
malformed URL), and `vt` the settled result of the VirusTotal lookup
(`isSuspicious`, `detectionRatio`). The outer `try`/`catch` is the `match`
on `hostParse`; the inner `try`/`catch` around `checkVirusTotal` is the
`match` on `vt`, whose error branch falls through to the heuristic result
exactly as the source's `console.warn` path does. -/
def typosquattingAnalyze (vtKey : String) (hostParse : Except String (List Char))
    (vt : Except String (Bool × String)) : TSOutcome :=
  match hostParse with
  | .error m =>
      { error := some m, isTyposquat := none, suspectedTarget := none,
        domain := none, risk := "unknown", detectionRatio := none, message := none }
  | .ok hostname =>
      let domain := replaceFirst "www.".data hostname
      match findSuspectedTarget domain with
      | none =>
          { error := none, isTyposquat := some false, suspectedTarget := none,
            domain := none, risk := "low", detectionRatio := none,
            message := some "No typosquatting detected" }
      | some suspectedTarget =>
          let heuristic : TSOutcome :=
            { error := none, isTyposquat := some true,
              suspectedTarget := some (String.mk suspectedTarget), domain := none,
              risk := "medium", detectionRatio := none,
              message := some ("Domain similar to " ++ String.mk suspectedTarget
                               ++ " - verify authenticity") }
          if vtKey ≠ "" ∧ vtKey ≠ "YOUR_VIRUSTOTAL_API_KEY" then
            match vt with
            | .ok (isSuspicious, ratio) =>
                { error := none, isTyposquat := some isSuspicious,
                  suspectedTarget := some (String.mk suspectedTarget),
                  domain := some (String.mk domain),
                  risk := if isSuspicious then "high" else "medium",
                  detectionRatio := some ratio,
                  message := some (if isSuspicious then
                      "Possible typosquat of " ++ String.mk suspectedTarget
                      ++ " (confirmed by VirusTotal)"
                    else "Similar to " ++ String.mk suspectedTarget
                      ++ ", appears legitimate") }
            | .error _ => heuristic
          else heuristic

/-- The fields of a check outcome that `URLAnalyzer.calculateRiskScore`
reads. Every strategy settles to a plain object, so a check value is always
an object; a JS field that may be absent is an `Option`, and the truthiness
tests `check.suspicious` / `check.warnings` are modelled as `Bool`
(`false` for an absent or falsy field). -/
structure CheckVal where
  error : Option String
  isSafe : Option Bool
  risk : Option String
  suspicious : Bool
  warnings : Bool
deriving DecidableEq

/-- Truthiness of `check.error`: present and not the empty string. -/
def errTruthy (c : CheckVal) : Bool :=
  match c.error with
  | some s => s ≠ ""
  | none => false

/-- The per-check increment of `URLAnalyzer.calculateRiskScore`'s
`forEach` body: checks with a truthy `error` are skipped, otherwise the
first matching branch of the if/else-if chain adds its weight. -/
def checkContribution (c : CheckVal) : ℕ :=
  if errTruthy c then 0
  else if c.isSafe = some false ∨ c.risk = some "high" then 30
  else if c.risk = some "medium" ∨ c.suspicious = true then 15
  else if c.risk = some "low" ∨ c.warnings = true then 5
  else 0

/-- `URLAnalyzer.calculateRiskScore(checks)`: accumulate the per-check
weights over `Object.values(checks)` and clamp with `Math.min(100, score)`. -/
def calculateRiskScore (checks : List CheckVal) : ℕ :=
  min 100 (checks.foldl (fun score c => score + checkContribution c) 0)

/-- `URLAnalyzer.determineOverallSafety(riskScore)`. -/
def determineOverallSafety (riskScore : ℕ) : String :=
  if riskScore ≥ 50 then "dangerous"
  else if riskScore ≥ 25 then "suspicious"
  else if riskScore ≥ 10 then "caution"
  else "safe"

/-- An uninformative check outcome: either a failed check (truthy `error`
field) or an unknown-risk outcome as the strategies emit them
(`risk: 'unknown'`, `isSafe` not `false`, no truthy `suspicious` or
`warnings` flag). -/
def uninformative (c : CheckVal) : Prop :=
  errTruthy c = true ∨
    (c.risk = some "unknown" ∧ c.isSafe ≠ some false ∧
     c.suspicious = false ∧ c.warnings = false)

instance (c : CheckVal) : Decidable (uninformative c) := by
  unfold uninformative; infer_instance

/-- A failed check outcome, as produced by the orchestrator's `.catch`
handler or any strategy's own catch block. -/
def failedCheck : CheckVal :=
  { error := some "Network Error", isSafe := none, risk := some "unknown",
    suspicious := false, warnings := false }

/-- The unknown-risk outcome of an unconfigured Safe Browsing check. -/
def unknownCheck : CheckVal :=
  { error := none, isSafe := none, risk := some "unknown",
    suspicious := false, warnings := false }

/-- `CACHE_CONFIG.ENABLED` from `config.js`. -/
def CACHE_ENABLED : Bool := true

/-- `CACHE_CONFIG.TTL` from `config.js` (one hour, in milliseconds). -/
def CACHE_TTL : ℤ := 3600000

/-- `CACHE_CONFIG.MAX_SIZE` from `config.js`. -/
def CACHE_MAX_SIZE : ℕ := 100

/-- One value of `URLAnalyzer.cache`: the composite result and the
insertion timestamp (`Date.now()` at write time). -/
structure CacheEntry (α : Type) where
  data : α
  timestamp : ℤ
deriving DecidableEq

/-- `URLAnalyzer.cache`: a JS `Map` modelled as an association list in
insertion order (a `Map` iterates, and hence evicts, in insertion order,
and `set` on an existing key keeps its position). Its payload type is kept
abstract. -/
abbrev Cache (α : Type) := List (String × CacheEntry α)

/-- `Map.prototype.get`/`has`: the entry stored under `key`, if any. -/
def mapGet {α : Type} (key : String) : Cache α → Option (CacheEntry α)
  | [] => none
  | (k, e) :: rest => if k = key then some e else mapGet key rest

/-- `Map.prototype.delete`: remove the entry stored under `key`. -/
def mapDelete {α : Type} (key : String) : Cache α → Cache α
  | [] => []
  | (k, e) :: rest =>
      if k = key then mapDelete key rest else (k, e) :: mapDelete key rest

/-- `Map.prototype.set`: replace in place if the key is present, else
append at the end (JS insertion-order semantics). -/
def mapSet {α : Type} (key : String) (v : CacheEntry α) : Cache α → Cache α
  | [] => [(key, v)]
  | (k, e) :: rest =>
      if k = key then (k, v) :: rest else (k, e) :: mapSet key v rest

/-- The cache-lookup prefix of `URLAnalyzer.analyze`
(`utils/urlAnalyzer.js` lines 27–37): on a live hit return the cached data
unchanged; on an expired hit delete the entry and miss; otherwise miss.
Returns the lookup result together with the cache state after the lookup. -/
def cacheLookup {α : Type} (now : ℤ) (key : String) (c : Cache α) :
    Option α × Cache α :=
  if CACHE_ENABLED then
    match mapGet key c with
    | none => (none, c)
    | some cached =>
        if now - cached.timestamp < CACHE_TTL then (some cached.data, c)
        else (none, mapDelete key c)
  else (none, c)

/-- The cache-write suffix of `URLAnalyzer.analyze`
(`utils/urlAnalyzer.js` lines 74–86): at capacity, delete the first key in
iteration order, then insert the new entry stamped `Date.now()`. -/
def cacheWrite {α : Type} (now : ℤ) (key : String) (data : α) (c : Cache α) :
    Cache α :=
  if CACHE_ENABLED then
    let c1 := if CACHE_MAX_SIZE ≤ c.length then
        (match c.head? with
         | some (firstKey, _) => mapDelete firstKey c
         | none => c)
      else c
    mapSet key ⟨data, now⟩ c1
  else c

/-- A hundred-entry cache used to witness the eviction behavior at
capacity. -/
def demoFullCache : Cache ℕ :=
  (List.range 100).map (fun i => (toString i, ⟨i, 0⟩))

/-- A one-entry cache used to witness the TTL behavior. -/
def demoSmallCache : Cache ℕ := [("k", ⟨7, 0⟩)]

/-- An observer identity held by `ReportingService.observers`. Callbacks
are compared by identity in the source (`obs !== observer`), so an opaque
identifier models them for the membership claims. -/
abbrev Observer := ℕ

/-- `ReportingService.subscribe(observer)`: `this.observers.push(observer)`. -/
def subscribe (observer : Observer) (observers : List Observer) : List Observer :=
  observers ++ [observer]

/-- `ReportingService.unsubscribe(observer)`:
`this.observers = this.observers.filter(obs => obs !== observer)`. -/
def unsubscribe (observer : Observer) (observers : List Observer) : List Observer :=
  observers.filter (fun obs => obs != observer)

/-- A subscribed callback with observable effects: given the event payload
and the current world state it produces the new world state, plus the
message of the exception it throws, if it throws one (its effects up to the
throw are kept, as in JS). -/
def Callback (ε σ : Type) := ε → σ → σ × Option String

/-- The observer loop of `ReportingService.notify`: invoke the callbacks in
subscription order. With `catchErrors = true` (the source wraps each call
in `try`/`catch` and only logs) a throwing callback never stops the loop;
with `catchErrors = false` the first exception would abort the loop and
propagate. Returns the final state and the propagated exception, if any. -/
def runCallbacks {ε σ : Type} (catchErrors : Bool) (e : ε) :
    List (Callback ε σ) → σ → σ × Option String
  | [], s => (s, none)
  | cb :: rest, s =>
      let r := cb e s
      match r.2 with
      | some err =>
          if catchErrors then runCallbacks catchErrors e rest r.1
          else (r.1, some err)
      | none => runCallbacks catchErrors e rest r.1

/-- `ReportingService.notify(data)`: the observer loop with each call
wrapped in `try`/`catch`. -/
def notify {ε σ : Type} (e : ε) (observers : List (Callback ε σ)) (s : σ) :
    σ × Option String :=
  runCallbacks true e observers s

/-- The effect of invoking every callback once, in order, ignoring thrown
exceptions: the intended meaning of a full notification round. -/
def applyAll {ε σ : Type} (e : ε) (observers : List (Callback ε σ)) (s : σ) : σ :=
  observers.foldl (fun st cb => (cb e st).1) s

/-- Lifecycle events broadcast by `ReportingService`. -/
inductive RSEvent (ρ : Type) where
  | submitting : ρ → RSEvent ρ
  | completed : ρ → RSEvent ρ
  | reportError : String → RSEvent ρ
  | historyCleared : RSEvent ρ

/-- One element of `report.submissions`. -/
structure Submission where
  service : String
  status : String
  data : String
deriving DecidableEq

/-- One entry of the `submissions.map` in `reportURL`: a fulfilled
sub-action yields status `success` and its value, a rejected one status
`failed` and its reason. -/
def mkSubmission (service : String) (r : Except String String) : Submission :=
  { service := service,
    status := match r with | .ok _ => "success" | .error _ => "failed",
    data := match r with | .ok v => v | .error m => m }

/-- A `ReportRecord` as built by `ReportingService.reportURL`. -/
structure Report where
  url : String
  category : String
  description : String
  timestamp : String
  reportId : String
  status : String
  submissions : List Submission
deriving DecidableEq

/-- `ReportingService.reportURL(url, category, description)`, with the
environment abstracted: `rid` and `ts` are the generated report id and
timestamp, `sub1`/`sub2` the settled results of the two parallel
sub-actions (`Promise.allSettled` never rejects, so both are always
collected), and `fault` models an unexpected exception thrown inside the
`try` block after the `submitting` notification and before the history
append — the window the source's `catch` handler covers. Returns the
result handed to the caller (the completed record, or the rethrown
exception), the new history, and the observer world state after the
notifications. -/
def reportURL {σ : Type} (rid ts : String) (fault : Option String)
    (sub1 sub2 : Except String String) (url category description : String)
    (observers : List (Callback (RSEvent Report) σ))
    (history : List Report) (s : σ) :
    Except String Report × List Report × σ :=
  let report0 : Report :=
    { url := url, category := category, description := description,
      timestamp := ts, reportId := rid, status := "pending", submissions := [] }
  let s1 := (notify (RSEvent.submitting report0) observers s).1
  match fault with
  | some m =>
      let s2 := (notify (RSEvent.reportError m) observers s1).1
      (.error m, history, s2)
  | none =>
      let report : Report :=
        { report0 with
          status := "completed",
          submissions := [mkSubmission "Internal Log" sub1,
                          mkSubmission "Manual Submission Info" sub2] }
      let s2 := (notify (RSEvent.completed report) observers s1).1
      (.ok report, history ++ [report], s2)

/-- `ReportingService.clearHistory()`: empty the history and notify with a
`history_cleared` event. Returns the new history and the observer world
state. -/
def clearHistory {σ : Type} (observers : List (Callback (RSEvent Report) σ))
    (_history : List Report) (s : σ) : List Report × σ :=
  ([], (notify (RSEvent.historyCleared : RSEvent Report) observers s).1)

/-- The record `reportURL` appends to the history on its happy path. -/
def completedReport (rid ts : String) (sub1 sub2 : Except String String)
    (url category description : String) : Report :=
  { url := url, category := category, description := description,
    timestamp := ts, reportId := rid, status := "completed",
    submissions := [mkSubmission "Internal Log" sub1,
                    mkSubmission "Manual Submission Info" sub2] }

/-- An uninformative check contributes nothing to the risk score. -/
lemma checkContribution_eq_zero {c : CheckVal} (h : uninformative c) :
    checkContribution c = 0 := by
  rcases h with he | ⟨hr, hs, hsus, hw⟩
  · simp [checkContribution, he]
  · by_cases he : errTruthy c = true
    · simp [checkContribution, he]
    · have h1 : ¬(c.isSafe = some false ∨ c.risk = some "high") := by
        rintro (h1 | h1)
        · exact hs h1
        · rw [hr] at h1; exact absurd h1 (by decide)
      have h2 : ¬(c.risk = some "medium" ∨ c.suspicious = true) := by
        rintro (h2 | h2)
        · rw [hr] at h2; exact absurd h2 (by decide)
        · rw [hsus] at h2; exact absurd h2 (by decide)
      have h3 : ¬(c.risk = some "low" ∨ c.warnings = true) := by
        rintro (h3 | h3)
        · rw [hr] at h3; exact absurd h3 (by decide)
        · rw [hw] at h3; exact absurd h3 (by decide)
      simp [checkContribution, he, h1, h2, h3]

/-- Folding the score accumulator over uninformative checks leaves it
unchanged. -/
lemma foldl_contribution_zero (l : List CheckVal) (a : ℕ)
    (h : ∀ c ∈ l, uninformative c) :
    l.foldl (fun score c => score + checkContribution c) a = a := by
  induction l generalizing a with
  | nil => rfl
  | cons c t ih =>
      simp only [List.foldl_cons]
      rw [checkContribution_eq_zero (h c (by simp)), Nat.add_zero]
      exact ih a (fun c' hc' => h c' (by simp [hc']))

/-- Claim C1, counterexample: an analysis in which every check either
failed (truthy `error`) or returned risk `'unknown'` is rendered with
`overallSafety = 'safe'` — the claim asserts the verdict is never `'safe'`
in this situation, but `calculateRiskScore` skips failed checks and gives
unknown-risk outcomes weight 0, and `determineOverallSafety 0 = 'safe'`. -/
theorem allFailed_rendered_safe_counterexample :
    uninformative failedCheck ∧ uninformative unknownCheck ∧
      determineOverallSafety (calculateRiskScore [failedCheck, unknownCheck]) = "safe" := by
  decide

/-- Claim C1, amended: for every analysis whose checks map contains only
failed or unknown outcomes (as the strategies emit them), the computed
`riskScore` is 0 and the computed `overallSafety` is `'safe'` — absence of
information is rendered as affirmatively safe, not as a cautious band. -/
theorem allFailed_riskScore_zero_safe (checks : List CheckVal)
    (h : ∀ c ∈ checks, uninformative c) :
    calculateRiskScore checks = 0 ∧
      determineOverallSafety (calculateRiskScore checks) = "safe" := by
  have h0 : calculateRiskScore checks = 0 := by
    unfold calculateRiskScore
    rw [foldl_contribution_zero checks 0 h]
    decide
  exact ⟨h0, by rw [h0]; decide⟩

/-- Witness for the amended claim C1 at a concrete all-failed/unknown
checks map. -/
theorem allFailed_riskScore_zero_safe_witness :
    calculateRiskScore [failedCheck, unknownCheck] = 0 ∧
      determineOverallSafety (calculateRiskScore [failedCheck, unknownCheck]) = "safe" :=
  allFailed_riskScore_zero_safe [failedCheck, unknownCheck] (by decide)

/-- Claim C7: for every checks map — any combination of check outcomes,
including all-failed — `calculateRiskScore` yields a natural number of at
most 100, i.e. an integer in the closed interval [0, 100]. -/
theorem riskScore_in_range (checks : List CheckVal) :
    0 ≤ calculateRiskScore checks ∧ calculateRiskScore checks ≤ 100 :=
  ⟨Nat.zero_le _, Nat.min_le_left 100 _⟩

/-- Claim C3, counterexample: `subscribe` is not idempotent — subscribing
the same observer twice does not yield the same observer list as
subscribing it once (the source unconditionally pushes). -/
theorem subscribe_twice_counterexample :
    subscribe 0 (subscribe 0 []) ≠ subscribe 0 [] := by decide

/-- Claim C3, amended: `unsubscribe` is an idempotent list-membership
change and unsubscribing a non-subscribed observer leaves the list
unchanged, but `subscribe` is not idempotent: it appends unconditionally,
so a double subscription stores the observer twice (one notification per
stored occurrence) and differs from a single subscription. -/
theorem observer_membership_changes (o : Observer) (l : List Observer) :
    (o ∉ l → unsubscribe o l = l) ∧
      unsubscribe o (unsubscribe o l) = unsubscribe o l ∧
      (subscribe o l).count o = l.count o + 1 ∧
      subscribe o (subscribe o l) ≠ subscribe o l := by
  refine ⟨?_, ?_, ?_, ?_⟩
  · intro ho
    apply List.filter_eq_self.mpr
    intro a ha
    simp only [bne_iff_ne, ne_eq]
    exact fun hao => ho (hao ▸ ha)
  · unfold unsubscribe
    rw [List.filter_filter]
    simp
  · simp [subscribe]
  · intro h
    have := congrArg List.length h
    simp [subscribe] at this

/-- Witness for the amended claim C3 at a concrete observer list. -/
theorem observer_membership_changes_witness :
    unsubscribe 5 [1, 2] = [1, 2] ∧
      unsubscribe 5 (unsubscribe 5 [1, 2]) = unsubscribe 5 [1, 2] ∧
      (subscribe 5 [1, 2]).count 5 = [1, 2].count 5 + 1 ∧
      subscribe 5 (subscribe 5 [1, 2]) ≠ subscribe 5 [1, 2] :=
  ⟨(observer_membership_changes 5 [1, 2]).1 (by decide),
   (observer_membership_changes 5 [1, 2]).2.1,
   (observer_membership_changes 5 [1, 2]).2.2.1,
   (observer_membership_changes 5 [1, 2]).2.2.2⟩

/-- The guarded observer loop applies every callback's effect in order and
never propagates an exception. -/
lemma runCallbacks_caught {ε σ : Type} (e : ε) (observers : List (Callback ε σ)) :
    ∀ s : σ, runCallbacks true e observers s = (applyAll e observers s, none) := by
  induction observers with
  | nil => intro s; rfl
  | cons cb rest ih =>
      intro s
      simp only [runCallbacks, applyAll, List.foldl_cons]
      cases h : (cb e s).2 <;> simp [h, ih, applyAll]

/-- Claim C9: during a notification every subscribed observer is invoked
(in subscription order, with all effects applied) even if an earlier
observer's callback throws; the exception is swallowed, so `notify` — and
hence its callers `clearHistory` and `reportURL` — never propagates an
observer exception to the caller and the operation's own result is
unchanged: `clearHistory` still empties the history, and `reportURL`'s
result is the rethrown internal fault or the completed record, never an
observer exception. -/
theorem notify_invokes_all_and_swallows {σ : Type} {ε : Type}
    (observers : List (Callback ε σ)) (e : ε) (s : σ)
    (robs : List (Callback (RSEvent Report) σ)) (history : List Report)
    (rid ts url category description m : String)
    (sub1 sub2 : Except String String) :
    notify e observers s = (applyAll e observers s, none) ∧
      clearHistory robs history s = ([], applyAll RSEvent.historyCleared robs s) ∧
      (reportURL rid ts (some m) sub1 sub2 url category description robs history s).1 =
        .error m ∧
      (reportURL rid ts none sub1 sub2 url category description robs history s).1 =
        .ok (completedReport rid ts sub1 sub2 url category description) := by
  refine ⟨runCallbacks_caught e observers s, ?_, rfl, rfl⟩
  unfold clearHistory notify
  rw [runCallbacks_caught]

/-- Claim C10: `reportURL` appends exactly one record to the history, whose
status is `'completed'` at the moment it is appended; on an unexpected
internal fault it notifies an error event and rethrows without appending,
leaving the history unchanged — so no `'pending'` or `'error'` record ever
reaches the history. -/
theorem reportURL_history_only_completed {σ : Type} (rid ts : String)
    (sub1 sub2 : Except String String) (url category description : String)
    (observers : List (Callback (RSEvent Report) σ)) (history : List Report)
    (s : σ) :
    (reportURL rid ts none sub1 sub2 url category description observers history s).2.1 =
        history ++ [completedReport rid ts sub1 sub2 url category description] ∧
      (completedReport rid ts sub1 sub2 url category description).status = "completed" ∧
      (reportURL rid ts none sub1 sub2 url category description observers history s).1 =
        .ok (completedReport rid ts sub1 sub2 url category description) ∧
      (∀ m : String,
        (reportURL rid ts (some m) sub1 sub2 url category description observers history s).1 =
            .error m ∧
          (reportURL rid ts (some m) sub1 sub2 url category description observers history s).2.1 =
            history) :=
  ⟨rfl, rfl, rfl, fun _ => ⟨rfl, rfl⟩⟩

/-- Deleting a key makes it absent. -/
lemma mapGet_mapDelete_self {α : Type} (key : String) (c : Cache α) :
    mapGet key (mapDelete key c) = none := by
  induction c with
  | nil => rfl
  | cons p rest ih =>
      obtain ⟨k, e⟩ := p
      by_cases h : k = key <;> simp [mapDelete, h, mapGet, ih]

/-- Deleting a key leaves every other key's entry unchanged. -/
lemma mapGet_mapDelete_other {α : Type} (key k' : String) (h : k' ≠ key)
    (c : Cache α) : mapGet k' (mapDelete key c) = mapGet k' c := by
  induction c with
  | nil => rfl
  | cons p rest ih =>
      obtain ⟨k, e⟩ := p
      by_cases hk : k = key
      · subst hk
        rw [mapDelete, if_pos rfl, ih, mapGet, if_neg (fun hkk => h hkk.symm)]
      · rw [mapDelete, if_neg hk]
        by_cases hk' : k = k'
        · rw [mapGet, if_pos hk', mapGet, if_pos hk']
        · rw [mapGet, if_neg hk', mapGet, if_neg hk', ih]

/-- Deleting an absent key is a no-op. -/
lemma mapDelete_absent {α : Type} (key : String) (c : Cache α)
    (h : mapGet key c = none) : mapDelete key c = c := by
  induction c with
  | nil => rfl
  | cons p rest ih =>
      obtain ⟨k, e⟩ := p
      by_cases hk : k = key
      · rw [mapGet, if_pos hk] at h; exact absurd h (by simp)
      · rw [mapGet, if_neg hk] at h
        rw [mapDelete, if_neg hk, ih h]

/-- A key that is not among the stored keys is absent. -/
lemma mapGet_eq_none_of_not_mem {α : Type} (key : String) (c : Cache α)
    (h : key ∉ c.map Prod.fst) : mapGet key c = none := by
  induction c with
  | nil => rfl
  | cons p rest ih =>
      obtain ⟨k, e⟩ := p
      simp only [List.map_cons, List.mem_cons] at h
      push_neg at h
      rw [mapGet, if_neg (fun hk => h.1 hk.symm)]
      exact ih h.2

/-- Setting an absent key appends the new entry at the end. -/
lemma mapSet_absent {α : Type} (key : String) (v : CacheEntry α) (c : Cache α)
    (h : mapGet key c = none) : mapSet key v c = c ++ [(key, v)] := by
  induction c with
  | nil => rfl
  | cons p rest ih =>
      obtain ⟨k, e⟩ := p
      by_cases hk : k = key
      · rw [mapGet, if_pos hk] at h; exact absurd h (by simp)
      · rw [mapGet, if_neg hk] at h
        rw [mapSet, if_neg hk, ih h, List.cons_append]

/-- Setting a key stores its entry. -/
lemma mapGet_mapSet_self {α : Type} (key : String) (v : CacheEntry α)
    (c : Cache α) : mapGet key (mapSet key v c) = some v := by
  induction c with
  | nil => simp [mapSet, mapGet]
  | cons p rest ih =>
      obtain ⟨k, e⟩ := p
      by_cases hk : k = key <;> simp [mapSet, hk, mapGet, ih]

/-- Claim C5: a cache entry written at time `T` is stored with timestamp
`T`; a lookup of its key at any time strictly before `T + TTL` returns the
cached data with the cache unchanged; at or after `T + TTL` the lookup
treats the entry as absent and removes exactly that entry from the cache at
that lookup (lazy removal — other entries are untouched), so a stale
result is never returned. -/
theorem cache_ttl_visibility (α : Type) (now T : ℤ) (key : String) (data : α)
    (c c' : Cache α) (h : mapGet key c = some ⟨data, T⟩) :
    mapGet key (cacheWrite T key data c') = some ⟨data, T⟩ ∧
      (now < T + CACHE_TTL → cacheLookup now key c = (some data, c)) ∧
      (T + CACHE_TTL ≤ now →
        (cacheLookup now key c).1 = none ∧
          (cacheLookup now key c).2 = mapDelete key c ∧
          mapGet key (cacheLookup now key c).2 = none ∧
          (∀ k', k' ≠ key →
            mapGet k' (cacheLookup now key c).2 = mapGet k' c)) := by
  refine ⟨?_, ?_, ?_⟩
  · unfold cacheWrite
    simp only [CACHE_ENABLED, if_true]
    exact mapGet_mapSet_self key ⟨data, T⟩ _
  · intro hlt
    unfold cacheLookup
    simp only [CACHE_ENABLED, if_true, h]
    rw [if_pos (by omega)]
  · intro hge
    unfold cacheLookup
    simp only [CACHE_ENABLED, if_true, h]
    rw [if_neg (by omega)]
    exact ⟨rfl, rfl, mapGet_mapDelete_self key c,
      fun k' hk' => mapGet_mapDelete_other key k' hk' c⟩

/-- Witness for claim C5: a one-entry cache written at time 0 is visible at
time 3599999 and gone at time 3600000 (TTL is one hour). -/
theorem cache_ttl_visibility_witness :
    mapGet "k" demoSmallCache = some ⟨7, 0⟩ ∧
      cacheLookup 3599999 "k" demoSmallCache = (some 7, demoSmallCache) ∧
      (cacheLookup 3600000 "k" demoSmallCache).1 = none :=
  ⟨by decide,
   (cache_ttl_visibility ℕ 3599999 0 "k" 7 demoSmallCache [] (by decide)).2.1 (by decide),
   ((cache_ttl_visibility ℕ 3600000 0 "k" 7 demoSmallCache [] (by decide)).2.2 (by decide)).1⟩

/-- Claim C6: inserting a fresh key while the cache holds the maximum
number of entries evicts exactly one entry — the oldest-inserted surviving
one, which under the `Map`'s insertion-order iteration is the first entry —
and keeps every other entry, appending the new entry at the end. -/
theorem cache_eviction_oldest (α : Type) (now : ℤ) (key : String) (data : α)
    (c : Cache α) (hlen : c.length = CACHE_MAX_SIZE)
    (habs : mapGet key c = none) (hnd : (c.map Prod.fst).Nodup) :
    cacheWrite now key data c = c.tail ++ [(key, ⟨data, now⟩)] := by
  cases c with
  | nil => simp [CACHE_MAX_SIZE] at hlen
  | cons p t =>
      obtain ⟨k0, e0⟩ := p
      have hk0 : k0 ≠ key ∧ mapGet key t = none := by
        by_cases hk : k0 = key
        · rw [mapGet, if_pos hk] at habs; exact absurd habs (by simp)
        · rw [mapGet, if_neg hk] at habs; exact ⟨hk, habs⟩
      have hnotmem : k0 ∉ t.map Prod.fst := by
        simp only [List.map_cons, List.nodup_cons] at hnd
        exact hnd.1
      have hdel : mapDelete k0 ((k0, e0) :: t) = t := by
        rw [mapDelete, if_pos rfl]
        exact mapDelete_absent k0 t (mapGet_eq_none_of_not_mem k0 t hnotmem)
      unfold cacheWrite
      simp only [CACHE_ENABLED, if_true]
      rw [if_pos (le_of_eq hlen.symm)]
      simp only [List.head?]
      rw [hdel, mapSet_absent key ⟨data, now⟩ t hk0.2]
      rfl

/-- Witness for claim C6: writing a fresh key into a full 100-entry cache
evicts exactly the first-inserted entry and appends the new one. -/
theorem cache_eviction_oldest_witness :
    demoFullCache.length = CACHE_MAX_SIZE ∧
      mapGet "newkey" demoFullCache = none ∧
      (demoFullCache.map Prod.fst).Nodup ∧
      cacheWrite 5 "newkey" (42 : ℕ) demoFullCache =
        demoFullCache.tail ++ [("newkey", ⟨42, 5⟩)] :=
  ⟨by decide, by decide, by decide,
   cache_eviction_oldest ℕ 5 "newkey" 42 demoFullCache (by decide) (by decide) (by decide)⟩

set_option maxRecDepth 100000 in
/-- Claim C2, counterexample: `checkForTyposquatting` applied to the
hostname `accounts.google.com` flags it as a typosquat. The TLD-stripped
candidate `accounts.google` contains the brand label `google` as a
substring while the full domain differs from `google.com`, so the
substring-containment rule fires with score 85 — the check has no
root-domain extraction, so the exact-root-match rationale of the claim does
not apply. -/
theorem typosquat_subdomain_counterexample :
    checkForTyposquatting "accounts.google.com".data =
      { suspicious := true, similarTo := some "google.com".data,
        score := JSNum.val 85 } := by
  decide

set_option maxRecDepth 100000 in
/-- Claim C2, amended: for the hostname `accounts.google.com`,
`TyposquattingStrategy.findSuspectedTarget` finds no suspected target (its
similarity to every brand domain is at most 0.7), so the strategy reports
`isTyposquat = false`; but the `checkForTyposquatting` function of the
urlChecker variant flags `suspicious = true` with `similarTo = google.com`
and score 85 through its substring-containment rule. -/
theorem typosquat_subdomain_two_checkers :
    findSuspectedTarget "accounts.google.com".data = none ∧
      typosquattingAnalyze "" (.ok "accounts.google.com".data) (.error "") =
        { error := none, isTyposquat := some false, suspectedTarget := none,
          domain := none, risk := "low", detectionRatio := none,
          message := some "No typosquatting detected" } ∧
      checkForTyposquatting "accounts.google.com".data =
        { suspicious := true, similarTo := some "google.com".data,
          score := JSNum.val 85 } := by
  decide

set_option maxRecDepth 100000 in
/-- Claim C8, counterexample: with a VirusTotal key configured, a network
failure of the VirusTotal lookup inside `TyposquattingStrategy.analyze` is
not converted into a failed outcome carrying the error message and risk
`'unknown'` — the strategy silently degrades to its heuristic result with
no `error` field, `isTyposquat = true` and risk `'medium'`. -/
theorem strategy_vt_failure_counterexample :
    typosquattingAnalyze "demo-key" (.ok "paypa1.com".data) (.error "timeout") =
      { error := none, isTyposquat := some true,
        suspectedTarget := some "paypal.com", domain := none,
        risk := "medium", detectionRatio := none,
        message := some "Domain similar to paypal.com - verify authenticity" } := by
  decide

/-- Claim C8, amended: every embedded strategy run settles to an outcome
object (the embeddings are total functions). A failure that reaches a
strategy's outer boundary is converted into a failed outcome that carries
the error message and risk `'unknown'`: the Safe Browsing strategy on a
network error (when its key is configured), and the typosquatting strategy
on a URL-parsing error. However, a failing VirusTotal lookup inside the
typosquatting strategy is not converted into a failed outcome: when a
suspected target was found it silently degrades to the heuristic result
(`isTyposquat = true`, risk `'medium'`, no error field). -/
theorem strategy_error_isolation (apiKey m vtKey : String)
    (vt : Except String (Bool × String)) (host target : List Char)
    (hk : apiKey ≠ "" ∧ apiKey ≠ "YOUR_GOOGLE_SAFE_BROWSING_API_KEY")
    (hvk : vtKey ≠ "" ∧ vtKey ≠ "YOUR_VIRUSTOTAL_API_KEY")
    (ht : findSuspectedTarget (replaceFirst "www.".data host) = some target) :
    safeBrowsingAnalyze apiKey (.error m) =
      { error := some m, isSafe := none, risk := "unknown",
        message := none, requiresSetup := false, threats := [] } ∧
      typosquattingAnalyze vtKey (.error m) vt =
        { error := some m, isTyposquat := none, suspectedTarget := none,
          domain := none, risk := "unknown", detectionRatio := none,
          message := none } ∧
      (∀ m' : String, typosquattingAnalyze vtKey (.ok host) (.error m') =
        { error := none, isTyposquat := some true,
          suspectedTarget := some (String.mk target), domain := none,
          risk := "medium", detectionRatio := none,
          message := some ("Domain similar to " ++ String.mk target
            ++ " - verify authenticity") }) := by
  refine ⟨?_, rfl, ?_⟩
  · unfold safeBrowsingAnalyze
    rw [if_neg (not_or.mpr hk)]
  · intro m'
    simp only [typosquattingAnalyze, ht]
    rw [if_pos hvk]

/-- Witness for the amended claim C8 at concrete inputs. -/
theorem strategy_error_isolation_witness :
    safeBrowsingAnalyze "k" (.error "boom") =
      { error := some "boom", isSafe := none, risk := "unknown",
        message := none, requiresSetup := false, threats := [] } ∧
      typosquattingAnalyze "demo-key" (.error "boom") (.error "x") =
        { error := some "boom", isTyposquat := none, suspectedTarget := none,
          domain := none, risk := "unknown", detectionRatio := none,
          message := none } ∧
      typosquattingAnalyze "demo-key" (.ok "paypa1.com".data) (.error "net down") =
        { error := none, isTyposquat := some true,
          suspectedTarget := some (String.mk "paypal.com".data), domain := none,
          risk := "medium", detectionRatio := none,
          message := some ("Domain similar to " ++ String.mk "paypal.com".data
            ++ " - verify authenticity") } :=
  have h := strategy_error_isolation "k" "boom" "demo-key" (.error "x")
    "paypa1.com".data "paypal.com".data (by decide) (by decide) (by decide)
  ⟨h.1, h.2.1, h.2.2 "net down"⟩

/-- `natQ` is the usual cast of ℕ into ℚ. -/
lemma natQ_eq (n : ℕ) : natQ n = (n : ℚ) := by
  unfold natQ
  rw [Rat.mkRat_eq_div]
  simp

/-- `ratSub` is subtraction on ℚ. -/
lemma ratSub_eq (a b : ℚ) : ratSub a b = a - b := by
  conv_rhs => rw [← Rat.num_div_den a, ← Rat.num_div_den b]
  unfold ratSub
  rw [Rat.mkRat_eq_div]
  have ha : ((a.den : ℚ)) ≠ 0 := by exact_mod_cast a.den_nz
  have hb : ((b.den : ℚ)) ≠ 0 := by exact_mod_cast b.den_nz
  push_cast
  field_simp
  ring

/-- `ratMul` is multiplication on ℚ. -/
lemma ratMul_eq (a b : ℚ) : ratMul a b = a * b := by
  conv_rhs => rw [← Rat.num_div_den a, ← Rat.num_div_den b]
  unfold ratMul
  rw [Rat.mkRat_eq_div]
  have ha : ((a.den : ℚ)) ≠ 0 := by exact_mod_cast a.den_nz
  have hb : ((b.den : ℚ)) ≠ 0 := by exact_mod_cast b.den_nz
  push_cast
  field_simp

/-- `ratDiv` is division on ℚ. -/
lemma ratDiv_eq (a b : ℚ) : ratDiv a b = a / b := by
  have key : a / b = ((a.num : ℚ) * b.den) / ((a.den : ℚ) * b.num) := by
    rcases eq_or_ne b 0 with rfl | hb
    · simp
    · have hbnum : (b.num : ℚ) ≠ 0 := by
        exact_mod_cast Rat.num_ne_zero.mpr hb
      have ha : ((a.den : ℚ)) ≠ 0 := by exact_mod_cast a.den_nz
      have hbd : ((b.den : ℚ)) ≠ 0 := by exact_mod_cast b.den_nz
      conv_lhs => rw [← Rat.num_div_den a, ← Rat.num_div_den b]
      field_simp
  unfold ratDiv
  by_cases hs : 0 ≤ b.num
  · rw [if_pos hs, Rat.mkRat_eq_div, key]
    have h1 : ((b.num.natAbs : ℕ) : ℤ) = b.num := Int.natAbs_of_nonneg hs
    have habs : ((b.num.natAbs : ℕ) : ℚ) = (b.num : ℚ) := by
      rw [← @Int.cast_natCast ℚ _ b.num.natAbs, h1]
    push_cast
    rw [habs]
  · rw [if_neg hs, Rat.mkRat_eq_div, key]
    have habs : ((b.num.natAbs : ℕ) : ℚ) = -(b.num : ℚ) := by
      have h1 : ((b.num.natAbs : ℕ) : ℤ) = -b.num :=
        Int.ofNat_natAbs_of_nonpos (le_of_not_le hs)
      rw [← @Int.cast_natCast ℚ _ b.num.natAbs, h1, Int.cast_neg]
    push_cast
    rw [habs]
    rw [mul_neg, neg_div_neg_eq]

/-- One Levenshtein row step over two copies of the same string: if row `i`
of the matrix maps `j` to `|i - j|`, the next row maps `j` to `|i+1 - j|`.
The character hypothesis is only needed on the diagonal, where the two
compared characters come from the same position of the same string. -/
lemma levStep_dist (c : Char) (i : ℕ) (s : List Char) :
    ∀ (j0 : ℕ),
      (∀ (k : ℕ) (hk : k < s.length), i + 1 = j0 + 1 + k → s.get ⟨k, hk⟩ = c) →
      levStep c s (ndist i j0)
          ((List.range s.length).map (fun k => ndist i (j0 + 1 + k)))
          (ndist (i + 1) j0)
        = (List.range s.length).map (fun k => ndist (i + 1) (j0 + 1 + k)) := by
  induction s with
  | nil => intro j0 _; rfl
  | cons sc s' ih =>
      intro j0 h
      rw [List.length_cons, List.range_succ_eq_map, List.map_cons, List.map_cons,
        List.map_map, List.map_map]
      simp only [Nat.add_zero]
      have hhead : min (1 + min (ndist i (j0 + 1)) (ndist (i + 1) j0))
          (if c = sc then ndist i j0 else ndist i j0 + 1) = ndist (i + 1) (j0 + 1) := by
        by_cases hij : i = j0
        · have hsc : sc = c := h 0 (by simp) (by omega)
          rw [if_pos hsc.symm]
          subst hij
          simp only [ndist]
          omega
        · by_cases hcs : c = sc
          · rw [if_pos hcs]
            simp only [ndist]
            omega
          · rw [if_neg hcs]
            simp only [ndist]
            omega
      have hfun1 : ((fun k => ndist i (j0 + 1 + k)) ∘ Nat.succ) =
          (fun k => ndist i (j0 + 1 + 1 + k)) := by
        funext k
        simp only [Function.comp_apply]
        congr 1
        omega
      have hfun2 : ((fun k => ndist (i + 1) (j0 + 1 + k)) ∘ Nat.succ) =
          (fun k => ndist (i + 1) (j0 + 1 + 1 + k)) := by
        funext k
        simp only [Function.comp_apply]
        congr 1
        omega
      rw [hfun1, hfun2]
      simp only [levStep]
      rw [hhead]
      have h' : ∀ (k : ℕ) (hk : k < s'.length),
          i + 1 = (j0 + 1) + 1 + k → s'.get ⟨k, hk⟩ = c := by
        intro k hk hik
        exact h (k + 1) (by simpa using Nat.succ_lt_succ hk) (by omega)
      have := ih (j0 + 1) h'
      simp only [this]

/-- Row invariant of the Levenshtein loop over two copies of the same
string: starting from row `i` (which maps `j` to `|i - j|`), consuming the
remaining suffix yields the final row `fun j => |length - j|`. -/
lemma levRows_dist (x : List Char) :
    ∀ (l p : List Char) (i : ℕ), x = p ++ l → p.length = i →
      levRows x l ((List.range (x.length + 1)).map (fun j => ndist i j)) (i + 1)
        = (List.range (x.length + 1)).map (fun j => ndist x.length j) := by
  intro l
  induction l with
  | nil =>
      intro p i hx hp
      have hi : i = x.length := by
        rw [hx, List.append_nil]
        exact hp.symm
      subst hi
      rfl
  | cons c l' ih =>
      intro p i hx hp
      conv_lhs => rw [List.range_succ_eq_map, List.map_cons, List.map_map]
      simp only [levRows]
      have hchar : ∀ (k : ℕ) (hk : k < x.length), i + 1 = 0 + 1 + k →
          x.get ⟨k, hk⟩ = c := by
        intro k hk hik
        have hki : k = i := by omega
        subst hki
        subst hx
        rw [List.get_eq_getElem, List.getElem_append_right (le_of_eq hp)]
        simp [hp]
      have hstep := levStep_dist c i x 0 hchar
      rw [show ndist (i + 1) 0 = i + 1 from by simp [ndist]] at hstep
      have hcomp : ((fun j => ndist i j) ∘ Nat.succ) = (fun k => ndist i (0 + 1 + k)) := by
        funext k
        simp only [Function.comp_apply]
        congr 1
        omega
      rw [hcomp, hstep]
      have hrow : (i + 1) :: (List.range x.length).map (fun k => ndist (i + 1) (0 + 1 + k)) =
          (List.range (x.length + 1)).map (fun j => ndist (i + 1) j) := by
        rw [List.range_succ_eq_map, List.map_cons, List.map_map]
        congr 1
        · simp [ndist]
        · apply List.map_congr_left
          intro a _
          simp only [Function.comp_apply]
          congr 1
          omega
      rw [hrow]
      exact ih (p ++ [c]) (i + 1) (by rw [hx]; simp) (by simp [hp])

/-- Claim C4, counterexample: the self-similarity of the empty string is
NaN, not 1.0 — the normalization divides the zero distance by the zero
maximum length, and `0/0` is NaN, which `1 - ·` propagates. -/
theorem similarity_empty_self_counterexample :
    findSimilarity "".data "".data = JSNum.nan ∧ JSNum.nan ≠ JSNum.val 1 := by
  decide

/-- Claim C4, amended: for every nonempty string `x`, the normalized
edit-distance self-similarity `findSimilarity x x` is exactly 1.0; for the
empty string it is NaN instead. -/
theorem similarity_self_eq_one (x : List Char) (hx : x ≠ []) :
    findSimilarity x x = JSNum.val 1 := by
  unfold findSimilarity
  simp only [gt_iff_lt, lt_self_iff_false, if_false, Nat.sub_self]
  rw [if_neg (by decide : ¬(3 < 0))]
  have h0 : (List.range (x.length + 1)).map (fun j => ndist 0 j) =
      List.range (x.length + 1) := by
    rw [show (fun j => ndist 0 j) = (id : ℕ → ℕ) from funext fun j => by simp [ndist, id],
      List.map_id]
  rw [← h0]
  rw [show (1 : ℕ) = 0 + 1 from rfl]
  rw [levRows_dist x x [] 0 (by simp) rfl]
  have hget : ((List.range (x.length + 1)).map (fun j => ndist x.length j)).getD
      x.length 0 = 0 := by
    have hlen : x.length <
        ((List.range (x.length + 1)).map (fun j => ndist x.length j)).length := by
      simp
    rw [List.getD_eq_getElem _ _ hlen]
    simp [ndist]
  rw [hget, max_self]
  have hxlen : x.length ≠ 0 := fun h => hx (List.length_eq_zero.mp h)
  have hb : natQ x.length ≠ 0 := by
    rw [natQ_eq]
    exact_mod_cast hxlen
  simp only [jsDiv, if_neg hb]
  have hdiv : ratDiv (natQ 0) (natQ x.length) = 0 := by
    rw [ratDiv_eq, natQ_eq]
    simp
  rw [hdiv]
  simp only [jsSub]
  rw [ratSub_eq]
  norm_num

/-- Witness for the amended claim C4 at a concrete nonempty string. -/
theorem similarity_self_eq_one_witness :
    "ab".data ≠ [] ∧ findSimilarity "ab".data "ab".data = JSNum.val 1 :=
  ⟨by decide, similarity_self_eq_one "ab".data (by decide)⟩

end QuishThis
